import Mathlib

/-!
Shallow embedding of the aero-arc-registry storage backends and their
TTL-liveness semantics, together with the RESP wire codec, and proofs of the
behavioural claims about them.

Conventions used throughout the embedding:

* Timestamps are integer milliseconds since the Unix epoch (the adapters store
  `UnixMilli` values).  Go's zero `time.Time` (`IsZero`) is modelled as `none`;
  `some v` is a concrete instant.  Durations (TTLs) are likewise integer
  milliseconds.  `now` (the wall clock observed by `time.Now()` inside an
  operation) is passed to each operation as an explicit argument.
* A cancellable `context.Context` is modelled as always live (no operation in
  the claims concerns cancellation).
* Redis string/hash values always round-trip through `json.Marshal`/`HSet`
  faithfully for the record types at hand, so records are stored structurally.
* The keyspaces `relay:<id>`, `agent:<id>`, `placement:<id>` and the two index
  sets use pairwise disjoint key prefixes (no prefix is a prefix of another),
  so the flat Redis keyspace is modelled as separate components of the state.
-/

/-- Relay record (internal/registry/backend.go). -/
structure Relay where
  id : String
  address : String
  grpcPort : Int
  lastSeen : Option Int
deriving DecidableEq, Repr

/-- Agent record (internal/registry/backend.go). -/
structure Agent where
  id : String
  lastHeartbeat : Option Int
deriving DecidableEq, Repr

/-- AgentPlacement record (internal/registry/backend.go). -/
structure AgentPlacement where
  agentID : String
  relayID : String
  updatedAt : Option Int
deriving DecidableEq, Repr

/-- TTLConfig (internal/registry/config.go); durations in milliseconds. -/
structure TTLConfig where
  relay : Int
  agent : Int
deriving DecidableEq, Repr

/-- Distinguished backend error values (internal/registry/errors.go and the
sibling error declarations used by the adapters). -/
inductive RegErr where
  | relayIDEmpty
  | agentIDEmpty
  | relayNotRegistered
  | agentNotRegistered
  | agentNotPlaced
  | heartbeatTimestampMissing
deriving DecidableEq, Repr

/-- Add a member to a Redis set (SADD): idempotent insertion. -/
def sadd (l : List String) (x : String) : List String :=
  if x ∈ l then l else l ++ [x]

namespace GoRedis

/-!
Model of the client-library pipeline adapter: the first
`internal/registry/backend/redis/backend.go` implementation (lines 53-259),
which stores each record as a Redis hash, sets a native `PEXPIRE` on every
write, and lazily re-checks the stored timestamp on reads.
-/

/-- Hash stored at `aeroarc:registry:relay:<id>`.  A field is `none` when it
was never written (HGetAll then yields no entry for it and the Go code reads
`""`). -/
structure RelayHash where
  id : Option String
  address : Option String
  grpcPort : Option Int
  lastSeenUnixMs : Option Int
deriving DecidableEq, Repr

/-- Hash stored at `aeroarc:registry:agent:<id>`. -/
structure AgentHash where
  id : Option String
  lastHeartbeatUnixMs : Option Int
deriving DecidableEq, Repr

/-- Hash stored at `aeroarc:registry:placement:<id>`. -/
structure PlacementHash where
  agentID : Option String
  relayID : Option String
  updatedAtUnixMs : Option Int
deriving DecidableEq, Repr

/-- State of the Redis keyspace used by the pipeline adapter.  `…Deadline`
components record the absolute `PEXPIRE` deadline of each key. -/
structure State where
  relayHash : String → Option RelayHash
  relayDeadline : String → Option Int
  relaysIndex : List String
  agentHash : String → Option AgentHash
  agentDeadline : String → Option Int
  placementHash : String → Option PlacementHash
  placementDeadline : String → Option Int
  agentsIndex : List String

/-- State of an empty Redis database. -/
def emptyState : State where
  relayHash := fun _ => none
  relayDeadline := fun _ => none
  relaysIndex := []
  agentHash := fun _ => none
  agentDeadline := fun _ => none
  placementHash := fun _ => none
  placementDeadline := fun _ => none
  agentsIndex := []

/-- Liveness-qualified read of a key: an expired key behaves as absent
(native Redis expiry). -/
def get (h : String → Option α) (dl : String → Option Int) (k : String)
    (now : Int) : Option α :=
  match h k with
  | none => none
  | some v =>
    match dl k with
    | none => some v
    | some d => if now < d then some v else none

/-- RegisterRelay (backend.go:53-71): HSET all relay fields with
`LastSeenUnixMs = now`, PEXPIRE the relay TTL, SADD to the relay index.
No id validation is performed. -/
def RegisterRelay (ttl : TTLConfig) (s : State) (now : Int) (relay : Relay) :
    Except RegErr Unit × State :=
  let h : RelayHash :=
    { id := some relay.id, address := some relay.address
      grpcPort := some relay.grpcPort, lastSeenUnixMs := some now }
  (.ok (),
    { s with
      relayHash := fun k => if k = relay.id then some h else s.relayHash k
      relayDeadline := fun k =>
        if k = relay.id then some (now + ttl.relay) else s.relayDeadline k
      relaysIndex := sadd s.relaysIndex relay.id })

/-- HeartbeatRelay (backend.go:73-89): rejects a zero timestamp, then HSET of
the single field `LastSeenUnixMs`, PEXPIRE, SADD.  No id validation is
performed; HSET on an absent (or expired) key creates a hash holding only
that field. -/
def HeartbeatRelay (ttl : TTLConfig) (s : State) (now : Int) (relayID : String)
    (ts : Option Int) : Except RegErr Unit × State :=
  match ts with
  | none => (.error .heartbeatTimestampMissing, s)
  | some tsv =>
    let h : RelayHash :=
      match get s.relayHash s.relayDeadline relayID now with
      | some h0 => { h0 with lastSeenUnixMs := some tsv }
      | none =>
        { id := none, address := none, grpcPort := none
          lastSeenUnixMs := some tsv }
    (.ok (),
      { s with
        relayHash := fun k => if k = relayID then some h else s.relayHash k
        relayDeadline := fun k =>
          if k = relayID then some (now + ttl.relay) else s.relayDeadline k
        relaysIndex := sadd s.relaysIndex relayID })

/-- parseRelay (backend.go:280-302): a missing hash field reads as `""`
(zero value). -/
def parseRelay (h : RelayHash) : Relay :=
  { id := h.id.getD "", address := h.address.getD ""
    grpcPort := h.grpcPort.getD 0, lastSeen := h.lastSeenUnixMs }

/-- Scan of the fetched relay hashes (backend.go:116-136): a missing record or
a record whose stored timestamp is zero or outside the TTL is stale; the rest
are returned.  Returns (live relays, stale ids). -/
def scanRelays (ttl : TTLConfig) (now : Int) :
    List (String × Option RelayHash) → List Relay × List String
  | [] => ([], [])
  | (id, data) :: rest =>
    let acc := scanRelays ttl now rest
    match data with
    | none => (acc.1, id :: acc.2)
    | some h =>
      let relay := parseRelay h
      match relay.lastSeen with
      | none => (acc.1, relay.id :: acc.2)
      | some ls =>
        if now - ls > ttl.relay then (acc.1, relay.id :: acc.2)
        else (relay :: acc.1, acc.2)

/-- ListRelays (backend.go:91-152): SMEMBERS of the index, pipelined HGETALL
of every member, TTL filtering, then DEL + SREM of the stale entries. -/
def ListRelays (ttl : TTLConfig) (s : State) (now : Int) :
    Except RegErr (List Relay) × State :=
  let pairs := s.relaysIndex.map
    (fun id => (id, get s.relayHash s.relayDeadline id now))
  let scanned := scanRelays ttl now pairs
  (.ok scanned.1,
    { s with
      relayHash := fun k => if k ∈ scanned.2 then none else s.relayHash k
      relayDeadline := fun k =>
        if k ∈ scanned.2 then none else s.relayDeadline k
      relaysIndex := s.relaysIndex.filter (fun id => id ∉ scanned.2) })

/-- RemoveRelay (backend.go:154-164): unconditional DEL + SREM; no existence
check, no error for an absent relay. -/
def RemoveRelay (s : State) (relayID : String) :
    Except RegErr Unit × State :=
  (.ok (),
    { s with
      relayHash := fun k => if k = relayID then none else s.relayHash k
      relayDeadline := fun k => if k = relayID then none else s.relayDeadline k
      relaysIndex := s.relaysIndex.filter (fun id => id ≠ relayID) })

/-- RegisterAgent (backend.go:166-193): one transactional pipeline writing the
agent hash, the placement hash (both stamped with `now` and PEXPIREd with the
agent TTL) and the agent-index SADD. -/
def RegisterAgent (ttl : TTLConfig) (s : State) (now : Int) (agent : Agent)
    (relayID : String) : Except RegErr Unit × State :=
  let ah : AgentHash := { id := some agent.id, lastHeartbeatUnixMs := some now }
  let ph : PlacementHash :=
    { agentID := some agent.id, relayID := some relayID
      updatedAtUnixMs := some now }
  (.ok (),
    { s with
      agentHash := fun k => if k = agent.id then some ah else s.agentHash k
      agentDeadline := fun k =>
        if k = agent.id then some (now + ttl.agent) else s.agentDeadline k
      placementHash := fun k =>
        if k = agent.id then some ph else s.placementHash k
      placementDeadline := fun k =>
        if k = agent.id then some (now + ttl.agent) else s.placementDeadline k
      agentsIndex := sadd s.agentsIndex agent.id })

/-- HeartbeatAgent (backend.go:195-231): rejects a zero timestamp, requires an
existing placement hash with non-empty `AgentID`/`RelayID` (else
agent-not-placed), then writes `LastHeartbeatUnixMs := ts` into the agent hash
but `UpdatedAtUnixMs := now` (the wall clock of the call, not `ts`) into the
placement hash, PEXPIREs both and SADDs the agent index. -/
def HeartbeatAgent (ttl : TTLConfig) (s : State) (now : Int) (agentID : String)
    (ts : Option Int) : Except RegErr Unit × State :=
  match ts with
  | none => (.error .heartbeatTimestampMissing, s)
  | some tsv =>
    match get s.placementHash s.placementDeadline agentID now with
    | none => (.error .agentNotPlaced, s)
    | some pd =>
      let pAgentID := pd.agentID.getD ""
      let pRelayID := pd.relayID.getD ""
      if pAgentID = "" ∨ pRelayID = "" then (.error .agentNotPlaced, s)
      else
        let ah : AgentHash :=
          match get s.agentHash s.agentDeadline agentID now with
          | some a0 => { a0 with lastHeartbeatUnixMs := some tsv }
          | none => { id := none, lastHeartbeatUnixMs := some tsv }
        let ph : PlacementHash :=
          { agentID := some pAgentID, relayID := some pRelayID
            updatedAtUnixMs := some now }
        (.ok (),
          { s with
            agentHash := fun k => if k = agentID then some ah else s.agentHash k
            agentDeadline := fun k =>
              if k = agentID then some (now + ttl.agent) else s.agentDeadline k
            placementHash := fun k =>
              if k = agentID then some ph else s.placementHash k
            placementDeadline := fun k =>
              if k = agentID then some (now + ttl.agent)
              else s.placementDeadline k
            agentsIndex := sadd s.agentsIndex agentID })

/-- parsePlacement (backend.go:304-318). -/
def parsePlacement (pd : PlacementHash) : AgentPlacement :=
  { agentID := pd.agentID.getD "", relayID := pd.relayID.getD ""
    updatedAt := pd.updatedAtUnixMs }

/-- GetAgentPlacement (backend.go:233-259): an absent placement hash reports
agent-not-placed; an expired one (zero or TTL-stale `UpdatedAt`) is lazily
evicted (DEL agent, DEL placement, SREM agent index) and likewise reports
agent-not-placed. -/
def GetAgentPlacement (ttl : TTLConfig) (s : State) (now : Int)
    (agentID : String) : Except RegErr AgentPlacement × State :=
  match get s.placementHash s.placementDeadline agentID now with
  | none => (.error .agentNotPlaced, s)
  | some pd =>
    let placement := parsePlacement pd
    let evicted : State :=
      { s with
        agentHash := fun k => if k = agentID then none else s.agentHash k
        agentDeadline := fun k =>
          if k = agentID then none else s.agentDeadline k
        placementHash := fun k =>
          if k = agentID then none else s.placementHash k
        placementDeadline := fun k =>
          if k = agentID then none else s.placementDeadline k
        agentsIndex := s.agentsIndex.filter (fun id => id ≠ agentID) }
    match placement.updatedAt with
    | none => (.error .agentNotPlaced, evicted)
    | some u =>
      if now - u > ttl.agent then (.error .agentNotPlaced, evicted)
      else (.ok placement, s)

/-- One backend operation together with the wall-clock instant at which it is
invoked. -/
inductive Op where
  | registerRelay (now : Int) (relay : Relay)
  | heartbeatRelay (now : Int) (relayID : String) (ts : Option Int)
  | listRelays (now : Int)
  | removeRelay (now : Int) (relayID : String)
  | registerAgent (now : Int) (agent : Agent) (relayID : String)
  | heartbeatAgent (now : Int) (agentID : String) (ts : Option Int)
  | getAgentPlacement (now : Int) (agentID : String)

/-- State transition of a single backend operation. -/
def step (ttl : TTLConfig) (s : State) : Op → State
  | .registerRelay now relay => (RegisterRelay ttl s now relay).2
  | .heartbeatRelay now relayID ts => (HeartbeatRelay ttl s now relayID ts).2
  | .listRelays now => (ListRelays ttl s now).2
  | .removeRelay _ relayID => (RemoveRelay s relayID).2
  | .registerAgent now agent relayID =>
    (RegisterAgent ttl s now agent relayID).2
  | .heartbeatAgent now agentID ts => (HeartbeatAgent ttl s now agentID ts).2
  | .getAgentPlacement now agentID => (GetAgentPlacement ttl s now agentID).2

/-- State reached from the empty store by a sequence of backend operations. -/
def run (ttl : TTLConfig) (trace : List Op) : State :=
  trace.foldl (step ttl) emptyState

/-- Agent ids that some RegisterAgent call of the trace registered. -/
def registeredAgentIDs : List Op → List String
  | [] => []
  | .registerAgent _ agent _ :: rest => agent.id :: registeredAgentIDs rest
  | _ :: rest => registeredAgentIDs rest

end GoRedis

namespace RespRedis

/-!
Model of the hand-rolled wire-protocol adapter: the second
`internal/registry/backend/redis/backend.go` implementation (lines 380-637),
which stores each record as a JSON string value, maintains the two index
sets, and never sets a native expiry nor re-checks stored timestamps.
-/

/-- State of the Redis keyspace used by the hand-rolled adapter: JSON record
values under `registry:relay:<id>`, `registry:agent:<id>`,
`registry:placement:<id>` and the two index sets. -/
structure State where
  relayRecord : String → Option Relay
  agentRecord : String → Option Agent
  placementRecord : String → Option AgentPlacement
  relaysSet : List String
  agentsSet : List String

/-- State of an empty Redis database. -/
def emptyState : State where
  relayRecord := fun _ => none
  agentRecord := fun _ => none
  placementRecord := fun _ => none
  relaysSet := []
  agentsSet := []

/-- RegisterRelay (backend.go:380-402): empty-id validation before any I/O,
`LastSeen` defaulted to now when unset, then SET + SADD in one MULTI/EXEC. -/
def RegisterRelay (s : State) (now : Int) (relay : Relay) :
    Except RegErr Unit × State :=
  if relay.id = "" then (.error .relayIDEmpty, s)
  else
    let r := if relay.lastSeen = none then
      { relay with lastSeen := some now } else relay
    (.ok (),
      { s with
        relayRecord := fun k => if k = relay.id then some r else s.relayRecord k
        relaysSet := sadd s.relaysSet relay.id })

/-- HeartbeatRelay (backend.go:404-421): empty-id validation, a zero timestamp
silently defaults to now, then GET of the relay (relay-not-registered when
absent) and re-registration with the refreshed `LastSeen`. -/
def HeartbeatRelay (s : State) (now : Int) (relayID : String)
    (ts : Option Int) : Except RegErr Unit × State :=
  if relayID = "" then (.error .relayIDEmpty, s)
  else
    let tsv := match ts with
      | none => some now
      | some v => some v
    match s.relayRecord relayID with
    | none => (.error .relayNotRegistered, s)
    | some relay => RegisterRelay s now { relay with lastSeen := tsv }

/-- ListRelays (backend.go:423-476): SMEMBERS then MGET; members whose key no
longer exists are SREMed from the index; every relay whose record exists is
returned, with no timestamp check of any kind. -/
def ListRelays (s : State) : Except RegErr (List Relay) × State :=
  (.ok (s.relaysSet.filterMap (fun id => s.relayRecord id)),
    { s with
      relaysSet := s.relaysSet.filter (fun id => (s.relayRecord id).isSome) })

/-- RemoveRelay (backend.go:478-506): empty-id validation, EXISTS check
(relay-not-registered when absent), then DEL + SREM in one MULTI/EXEC.  The
relay record and its index membership are the only keys touched. -/
def RemoveRelay (s : State) (relayID : String) : Except RegErr Unit × State :=
  if relayID = "" then (.error .relayIDEmpty, s)
  else
    match s.relayRecord relayID with
    | none => (.error .relayNotRegistered, s)
    | some _ =>
      (.ok (),
        { s with
          relayRecord := fun k => if k = relayID then none else s.relayRecord k
          relaysSet := s.relaysSet.filter (fun id => id ≠ relayID) })

/-- RegisterAgent (backend.go:508-541): validates both ids, requires the
relay record to exist, defaults `LastHeartbeat`, then atomically SETs the
agent record and placement record and SADDs the agent index. -/
def RegisterAgent (s : State) (now : Int) (agent : Agent) (relayID : String) :
    Except RegErr Unit × State :=
  if relayID = "" then (.error .relayIDEmpty, s)
  else if agent.id = "" then (.error .agentIDEmpty, s)
  else
    match s.relayRecord relayID with
    | none => (.error .relayNotRegistered, s)
    | some _ =>
      let a := if agent.lastHeartbeat = none then
        { agent with lastHeartbeat := some now } else agent
      (.ok (),
        { s with
          agentRecord := fun k => if k = agent.id then some a else s.agentRecord k
          placementRecord := fun k =>
            if k = agent.id then
              some { agentID := agent.id, relayID := relayID
                     updatedAt := a.lastHeartbeat }
            else s.placementRecord k
          agentsSet := sadd s.agentsSet agent.id })

/-- GetAgentPlacement (backend.go:581-603): empty-id validation, then a plain
GET; an absent record reports agent-not-registered; a present record is
returned unconditionally — no TTL check and no eviction. -/
def GetAgentPlacement (s : State) (agentID : String) :
    Except RegErr AgentPlacement × State :=
  if agentID = "" then (.error .agentIDEmpty, s)
  else
    match s.placementRecord agentID with
    | none => (.error .agentNotRegistered, s)
    | some p => (.ok p, s)

/-- HeartbeatAgent (backend.go:543-579): empty-id validation, GET of the agent
record (agent-not-registered when absent), zero timestamp defaults to now,
then GetAgentPlacement (so a missing placement also reports
agent-not-registered), and both records are rewritten with `ts`. -/
def HeartbeatAgent (s : State) (now : Int) (agentID : String)
    (ts : Option Int) : Except RegErr Unit × State :=
  if agentID = "" then (.error .agentIDEmpty, s)
  else
    match s.agentRecord agentID with
    | none => (.error .agentNotRegistered, s)
    | some agent =>
      let tsv := match ts with
        | none => some now
        | some v => some v
      let agent' := { agent with lastHeartbeat := tsv }
      match (GetAgentPlacement s agentID).1 with
      | .error e => (.error e, s)
      | .ok p =>
        let p' := { p with updatedAt := tsv }
        (.ok (),
          { s with
            agentRecord := fun k =>
              if k = agentID then some agent' else s.agentRecord k
            placementRecord := fun k =>
              if k = agentID then some p' else s.placementRecord k })

end RespRedis

namespace Etcd

/-!
Model of the etcd-shaped in-process map adapter (src/unnamed/part_004,
lines 30-181): three maps guarded by a lock.  `ListRelays` iterates a Go map
in unspecified order and is not needed by any claim, so it is omitted.
-/

/-- The three maps held by the adapter. -/
structure State where
  relays : String → Option Relay
  agents : String → Option Agent
  placements : String → Option AgentPlacement

/-- RegisterRelay (part_004:30-44). -/
def RegisterRelay (s : State) (now : Int) (relay : Relay) :
    Except RegErr Unit × State :=
  if relay.id = "" then (.error .relayIDEmpty, s)
  else
    let r := if relay.lastSeen = none then
      { relay with lastSeen := some now } else relay
    (.ok (),
      { s with
        relays := fun k => if k = relay.id then some r else s.relays k })

/-- RemoveRelay (part_004:85-101): map-membership check, relay-not-registered
when absent, then deletion from the relay map only. -/
def RemoveRelay (s : State) (relayID : String) : Except RegErr Unit × State :=
  if relayID = "" then (.error .relayIDEmpty, s)
  else
    match s.relays relayID with
    | none => (.error .relayNotRegistered, s)
    | some _ =>
      (.ok (),
        { s with
          relays := fun k => if k = relayID then none else s.relays k })

/-- RegisterAgent (part_004:103-130): validates both ids, requires the relay
to exist, then stores the agent and its placement in the same critical
section. -/
def RegisterAgent (s : State) (now : Int) (agent : Agent) (relayID : String) :
    Except RegErr Unit × State :=
  if relayID = "" then (.error .relayIDEmpty, s)
  else if agent.id = "" then (.error .agentIDEmpty, s)
  else
    let a := if agent.lastHeartbeat = none then
      { agent with lastHeartbeat := some now } else agent
    match s.relays relayID with
    | none => (.error .relayNotRegistered, s)
    | some _ =>
      (.ok (),
        { s with
          agents := fun k => if k = agent.id then some a else s.agents k
          placements := fun k =>
            if k = agent.id then
              some { agentID := agent.id, relayID := relayID
                     updatedAt := a.lastHeartbeat }
            else s.placements k })

/-- HeartbeatAgent (part_004:132-160). -/
def HeartbeatAgent (s : State) (now : Int) (agentID : String)
    (ts : Option Int) : Except RegErr Unit × State :=
  if agentID = "" then (.error .agentIDEmpty, s)
  else
    let tsv := match ts with
      | none => some now
      | some v => some v
    match s.agents agentID with
    | none => (.error .agentNotRegistered, s)
    | some agent =>
      match s.placements agentID with
      | none => (.error .agentNotRegistered, s)
      | some placement =>
        (.ok (),
          { s with
            agents := fun k =>
              if k = agentID then some { agent with lastHeartbeat := tsv }
              else s.agents k
            placements := fun k =>
              if k = agentID then some { placement with updatedAt := tsv }
              else s.placements k })

/-- GetAgentPlacement (part_004:162-177). -/
def GetAgentPlacement (s : State) (agentID : String) :
    Except RegErr AgentPlacement × State :=
  if agentID = "" then (.error .agentIDEmpty, s)
  else
    match s.placements agentID with
    | none => (.error .agentNotRegistered, s)
    | some placement => (.ok placement, s)

end Etcd

/-!
Configuration model (internal/registry/config.go and the backend-kind
constants of src/unnamed/part_003).
-/

/-- RegistryBackend is a string type in the source (`type RegistryBackend
string`). -/
abbrev RegistryBackend := String

/-- Backend-kind constants (src/unnamed/part_003:8-13). -/
def RedisRegistryBackend : RegistryBackend := "redis"

/-- Declared backend-kind constant for the etcd adapter. -/
def EtcdRegistryBackend : RegistryBackend := "etcd"

/-- Declared backend-kind constant for the consul adapter. -/
def ConsulRegistryBackend : RegistryBackend := "consul"

/-- Declared backend-kind constant for the in-memory adapter. -/
def MemoryRegistryBackend : RegistryBackend := "memory"

/-- Configuration validation errors (internal/registry/errors.go), with the
`fmt.Errorf` wrappers of Config.Validate modelled as constructors. -/
inductive ConfigErr where
  | redisConfigNil
  | redisAddrEmpty
  | redisPortInvalid
  | redisDBInvalid
  | grpcPortInvalid
  | tlsCertPathMissing
  | tlsKeyPathMissing
  | ttlRelayInvalid
  | ttlAgentInvalid
  | unsupportedBackend (backend : String)
  | unknownBackend (backend : String)
  | redisInvalid (e : ConfigErr)
  | grpcInvalid (e : ConfigErr)
  | ttlInvalid (e : ConfigErr)
deriving DecidableEq, Repr

/-- registryMap (src/unnamed/part_003:15-17): the literal map holds the single
entry `"redis"`. -/
def registryMap (backend : String) : Option RegistryBackend :=
  if backend = "redis" then some RedisRegistryBackend else none

/-- ParseRegistryBackend (config.go:93-99). -/
def ParseRegistryBackend (backend : String) :
    Except ConfigErr RegistryBackend :=
  match registryMap backend with
  | some registryBackend => .ok registryBackend
  | none => .error (.unsupportedBackend backend)

/-- RedisConfig (config.go:76-91). -/
structure RedisConfig where
  address : String
  port : Int
  username : String
  password : String
  db : Int
deriving DecidableEq, Repr

/-- TLSConfig (config.go:38-48). -/
structure TLSConfig where
  enabled : Bool
  certPath : String
  keyPath : String
deriving DecidableEq, Repr

/-- GRPCConfig (config.go:25-36). -/
structure GRPCConfig where
  listenAddress : String
  listenPort : Int
  tls : TLSConfig
deriving DecidableEq, Repr

/-- BackendConfig (config.go:61-69). -/
structure BackendConfig where
  type : RegistryBackend
  redis : Option RedisConfig
deriving DecidableEq, Repr

/-- Config (config.go:11-23). -/
structure Config where
  backend : BackendConfig
  grpc : GRPCConfig
  ttl : TTLConfig
deriving DecidableEq, Repr

/-- RedisConfig.Validate (config.go:127-141). -/
def RedisConfig.Validate (r : RedisConfig) : Except ConfigErr Unit :=
  if r.address = "" then .error .redisAddrEmpty
  else if r.port ≤ 0 then .error .redisPortInvalid
  else if r.db < 0 then .error .redisDBInvalid
  else .ok ()

/-- GRPCConfig.Validate (config.go:143-159). -/
def GRPCConfig.Validate (g : GRPCConfig) : Except ConfigErr Unit :=
  if g.listenPort ≤ 0 then .error .grpcPortInvalid
  else if g.tls.enabled then
    if g.tls.certPath = "" then .error .tlsCertPathMissing
    else if g.tls.keyPath = "" then .error .tlsKeyPathMissing
    else .ok ()
  else .ok ()

/-- TTLConfig.Validate (config.go:161-171). -/
def TTLConfig.Validate (t : TTLConfig) : Except ConfigErr Unit :=
  if t.agent ≤ 0 then .error .ttlAgentInvalid
  else if t.relay ≤ 0 then .error .ttlRelayInvalid
  else .ok ()

/-- Config.Validate (config.go:101-125): the backend-type switch accepts
redis (requiring its sub-config), accepts memory/etcd/consul with no further
backend checks, and rejects any other type; then GRPC and TTL validation. -/
def Config.Validate (c : Config) : Except ConfigErr Unit :=
  let backendStep : Except ConfigErr Unit :=
    if c.backend.type = RedisRegistryBackend then
      match c.backend.redis with
      | none => .error .redisConfigNil
      | some r =>
        match r.Validate with
        | .error e => .error (.redisInvalid e)
        | .ok _ => .ok ()
    else if c.backend.type = MemoryRegistryBackend ∨
        c.backend.type = EtcdRegistryBackend ∨
        c.backend.type = ConsulRegistryBackend then
      .ok ()
    else
      .error (.unknownBackend c.backend.type)
  match backendStep with
  | .error e => .error e
  | .ok _ =>
    match c.grpc.Validate with
    | .error e => .error (.grpcInvalid e)
    | .ok _ =>
      match c.ttl.Validate with
      | .error e => .error (.ttlInvalid e)
      | .ok _ => .ok ()

namespace RESP

/-!
Model of the RESP wire codec of the hand-rolled adapter
(backend.go:788-881).  The byte stream is modelled as a `List Char`
(arguments are Go strings, i.e. byte strings; only the framing bytes are ever
inspected, payload bytes are opaque, so `Char` is an adequate alphabet).
-/

/-- Successful reply values of readRESP (the Go `any`): a simple status
string, an integer, a bulk byte string, an array, or the untyped nil returned
for negative bulk/array lengths. -/
inductive RVal where
  | simple (s : List Char)
  | int (n : Int)
  | bulk (b : List Char)
  | arr (xs : List RVal)
  | null

/-- Failure outcomes of readRESP: stream exhaustion, an error reply line
(`-`), a malformed length/integer line, an unknown type prefix, or exhaustion
of the recursion fuel of the embedding (Go recurses unboundedly; any fuel
larger than the nesting depth behaves identically). -/
inductive RErr where
  | eof
  | reply (msg : List Char)
  | badNumber (s : List Char)
  | badPrefix (c : Char)
  | fuel
deriving DecidableEq, Repr

/-- CRLF line terminator. -/
def crlf : List Char := ['\r', '\n']

/-- Decimal digits of `n`, most significant first — the output of
`strconv.Itoa` on a non-negative int. -/
def natChars (n : Nat) : List Char :=
  if n = 0 then ['0'] else ((Nat.digits 10 n).map Nat.digitChar).reverse

/-- writeRESP (backend.go:788-801): a `*` count line, then for each argument
a `$` byte-length line followed by the raw argument bytes, each line
CRLF-terminated. -/
def writeRESP (args : List (List Char)) : List Char :=
  ('*' :: natChars args.length) ++ crlf ++
    (args.map (fun arg => ('$' :: natChars arg.length) ++ crlf ++ arg ++ crlf)).flatten

/-- Value of a decimal digit character, `none` otherwise. -/
def digitVal (c : Char) : Option Nat :=
  if '0' ≤ c ∧ c ≤ '9' then some (c.toNat - '0'.toNat) else none

/-- Accumulating decimal parser over a digit string. -/
def parseNatAux : Nat → List Char → Option Nat
  | acc, [] => some acc
  | acc, c :: cs =>
    match digitVal c with
    | none => none
    | some d => parseNatAux (acc * 10 + d) cs

/-- Unsigned decimal parser: non-empty all-digit strings only. -/
def parseNatChars (l : List Char) : Option Nat :=
  if l.isEmpty then none else parseNatAux 0 l

/-- strconv.Atoi (as used by readRESP on length and integer lines): optional
sign followed by decimal digits. -/
def parseIntChars (l : List Char) : Option Int :=
  match l with
  | [] => none
  | c :: cs =>
    if c = '-' then (parseNatChars cs).map (fun n => -(n : Int))
    else if c = '+' then (parseNatChars cs).map (fun n => (n : Int))
    else (parseNatChars (c :: cs)).map (fun n => (n : Int))

/-- Split the stream at the first `'\n'` (bufio `ReadString('\n')`); `none`
when the stream holds no newline (an I/O error in Go). -/
def splitLine : List Char → Option (List Char × List Char)
  | [] => none
  | c :: cs =>
    if c = '\n' then some ([], cs)
    else (splitLine cs).map (fun p => (c :: p.1, p.2))

/-- Strip one trailing `'\r'` (the second TrimSuffix of readLine). -/
def stripCR (l : List Char) : List Char :=
  if l.getLast? = some '\r' then l.dropLast else l

/-- readLine (backend.go:875-881): read up to the newline and strip the CRLF
terminator. -/
def readLine (input : List Char) : Option (List Char × List Char) :=
  (splitLine input).map (fun p => (stripCR p.1, p.2))

mutual

/-- readRESP (backend.go:803-873): the unified recursive reply decoder over
the five RESP reply shapes, with explicit recursion fuel. -/
def readRESP : Nat → List Char → Except RErr (RVal × List Char)
  | 0, _ => .error .fuel
  | _ + 1, [] => .error .eof
  | fuel + 1, c :: cs =>
    if c = '+' then
      match readLine cs with
      | none => .error .eof
      | some (line, rest) => .ok (.simple line, rest)
    else if c = '-' then
      match readLine cs with
      | none => .error .eof
      | some (line, _) => .error (.reply line)
    else if c = ':' then
      match readLine cs with
      | none => .error .eof
      | some (line, rest) =>
        match parseIntChars line with
        | none => .error (.badNumber line)
        | some v => .ok (.int v, rest)
    else if c = '$' then
      match readLine cs with
      | none => .error .eof
      | some (line, rest) =>
        match parseIntChars line with
        | none => .error (.badNumber line)
        | some n =>
          if n < 0 then .ok (.null, rest)
          else if rest.length < n.toNat + 2 then .error .eof
          else .ok (.bulk (rest.take n.toNat), rest.drop (n.toNat + 2))
    else if c = '*' then
      match readLine cs with
      | none => .error .eof
      | some (line, rest) =>
        match parseIntChars line with
        | none => .error (.badNumber line)
        | some n =>
          if n < 0 then .ok (.null, rest)
          else
            match readArray fuel n.toNat rest with
            | .error e => .error e
            | .ok (xs, rest') => .ok (.arr xs, rest')
    else .error (.badPrefix c)
termination_by fuel _ => (fuel, 0)

/-- Element loop of the `*` case of readRESP. -/
def readArray : Nat → Nat → List Char → Except RErr (List RVal × List Char)
  | _, 0, input => .ok ([], input)
  | fuel, n + 1, input =>
    match readRESP fuel input with
    | .error e => .error e
    | .ok (v, rest) =>
      match readArray fuel n rest with
      | .error e => .error e
      | .ok (vs, rest') => .ok (v :: vs, rest')
termination_by fuel n _ => (fuel, n + 1)

end

end RESP

/-!
Concrete fixtures used by the claim theorems, and the trace invariant
predicate of the placement/agent model.
-/

/-- Representative TTL configuration: 2000 ms for both relays and agents (the
values used by the adapter test suites, in milliseconds). -/
def demoTTL : TTLConfig := { relay := 2000, agent := 2000 }

/-- Empty state of the etcd-shaped adapter. -/
def Etcd.emptyState : Etcd.State where
  relays := fun _ => none
  agents := fun _ => none
  placements := fun _ => none

/-- Pipeline-adapter state holding one placed agent `a1` on relay `r1`, both
stamped at epoch 0 with native deadlines far in the future. -/
def c1State : GoRedis.State :=
  { GoRedis.emptyState with
    agentHash := fun k =>
      if k = "a1" then some { id := some "a1", lastHeartbeatUnixMs := some 0 }
      else none
    agentDeadline := fun k => if k = "a1" then some 200000 else none
    placementHash := fun k =>
      if k = "a1" then
        some { agentID := some "a1", relayID := some "r1"
               updatedAtUnixMs := some 0 }
      else none
    placementDeadline := fun k => if k = "a1" then some 200000 else none
    agentsIndex := ["a1"] }

/-- Hand-rolled-adapter state holding an agent record for `a1` but no
placement record. -/
def c1RespState : RespRedis.State :=
  { RespRedis.emptyState with
    agentRecord := fun k =>
      if k = "a1" then some { id := "a1", lastHeartbeat := some 0 } else none }

/-- Relay record whose `LastSeen` is the epoch (arbitrarily stale for every
positive TTL at any later read time). -/
def c2Relay : Relay :=
  { id := "r1", address := "10.0.0.2", grpcPort := 60000, lastSeen := some 0 }

/-- Hand-rolled-adapter state holding the stale relay `r1` in the record space
and the index. -/
def c2State : RespRedis.State :=
  { RespRedis.emptyState with
    relayRecord := fun k => if k = "r1" then some c2Relay else none
    relaysSet := ["r1"] }

/-- Pipeline-adapter state holding the same stale relay (hash stamped at the
epoch, native deadline extended far beyond it). -/
def c2GoState : GoRedis.State :=
  { GoRedis.emptyState with
    relayHash := fun k =>
      if k = "r1" then
        some { id := some "r1", address := some "10.0.0.2"
               grpcPort := some 60000, lastSeenUnixMs := some 0 }
      else none
    relayDeadline := fun k => if k = "r1" then some 2000000000 else none
    relaysIndex := ["r1"] }

/-- Placement stamped at the epoch. -/
def c4Placement : AgentPlacement :=
  { agentID := "a1", relayID := "r1", updatedAt := some 0 }

/-- Hand-rolled-adapter state holding agent `a1` with the epoch-stamped
placement. -/
def c4State : RespRedis.State :=
  { RespRedis.emptyState with
    agentRecord := fun k =>
      if k = "a1" then some { id := "a1", lastHeartbeat := some 0 } else none
    placementRecord := fun k => if k = "a1" then some c4Placement else none
    agentsSet := ["a1"] }

/-- Pipeline-adapter state holding the same epoch-stamped placement with a
native deadline far in the future (the coarse/extended native-expiry case the
timestamp re-check exists for). -/
def c4GoState : GoRedis.State :=
  { GoRedis.emptyState with
    agentHash := fun k =>
      if k = "a1" then some { id := some "a1", lastHeartbeatUnixMs := some 0 }
      else none
    agentDeadline := fun k => if k = "a1" then some 200000 else none
    placementHash := fun k =>
      if k = "a1" then
        some { agentID := some "a1", relayID := some "r1"
               updatedAtUnixMs := some 0 }
      else none
    placementDeadline := fun k => if k = "a1" then some 200000 else none
    agentsIndex := ["a1"] }

/-- Relay whose id is the empty string. -/
def emptyIDRelay : Relay :=
  { id := "", address := "10.0.0.1", grpcPort := 50051, lastSeen := none }

/-- One-operation trace registering agent `a1` on relay `r1`. -/
def c9Trace : List GoRedis.Op :=
  [.registerAgent 0 { id := "a1", lastHeartbeat := none } "r1"]

/-- Configuration selecting the in-memory backend kind, with valid gRPC and
TTL sub-configurations and no redis sub-config. -/
def demoConfig : Config where
  backend := { type := MemoryRegistryBackend, redis := none }
  grpc :=
    { listenAddress := "0.0.0.0", listenPort := 50051
      tls := { enabled := false, certPath := "", keyPath := "" } }
  ttl := demoTTL

/-- Every placement belongs to an agent id drawn from `regs` and is backed by
an agent hash. -/
def PlacementBacked (regs : List String) (s : GoRedis.State) : Prop :=
  ∀ aid, (s.placementHash aid).isSome →
    aid ∈ regs ∧ (s.agentHash aid).isSome

deriving instance DecidableEq for Except

/-!
Claim theorems.
-/

/-- C10: ParseRegistryBackend returns the redis backend kind for the exact
input `"redis"` and the unsupported-backend error for every other string —
including `"memory"`, `"etcd"` and `"consul"`, although those kinds are
declared constants and pass Config.Validate's backend-type switch (so a
config using them validates whenever its gRPC and TTL sections do). -/
theorem parseRegistryBackend_redis_only :
    ParseRegistryBackend "redis" = .ok RedisRegistryBackend ∧
    (∀ s : String, s ≠ "redis" →
      ParseRegistryBackend s = .error (.unsupportedBackend s)) ∧
    (∀ c : Config,
      (c.backend.type = MemoryRegistryBackend ∨
        c.backend.type = EtcdRegistryBackend ∨
        c.backend.type = ConsulRegistryBackend) →
      c.grpc.Validate = .ok () → c.ttl.Validate = .ok () →
      c.Validate = .ok ()) := by
  refine ⟨rfl, ?_, ?_⟩
  · intro s hs
    unfold ParseRegistryBackend registryMap
    rw [if_neg hs]
  · intro c hty hg ht
    have hne : ¬ c.backend.type = RedisRegistryBackend := by
      rcases hty with h | h | h <;> rw [h] <;> decide
    simp only [Config.Validate, if_neg hne, if_pos hty, hg, ht]

/-- C10 witness: the concrete kind `"memory"` is rejected by the parser while
`demoConfig`, which selects the memory backend kind, validates. -/
theorem parseRegistryBackend_redis_only_witness :
    ParseRegistryBackend "memory" = .error (.unsupportedBackend "memory") ∧
    demoConfig.Validate = .ok () :=
  ⟨parseRegistryBackend_redis_only.2.1 "memory" (by decide),
    parseRegistryBackend_redis_only.2.2 demoConfig (Or.inl rfl) rfl rfl⟩

/-- C1: the pipeline adapter's HeartbeatAgent does NOT stamp the supplied
timestamp into the placement: on a placed agent it writes `ts` into the agent
hash but the wall clock `now` of the call into the placement's
`UpdatedAtUnixMs`, so a subsequent GetAgentPlacement returns `updated_at =
now ≠ ts`; the hand-rolled adapter does use `ts` for both records but reports
agent-not-registered (not the claimed agent-not-placed) when no placement
exists. -/
theorem heartbeatAgent_updatedAt_divergence :
    (GoRedis.HeartbeatAgent demoTTL c1State 1000 "a1" (some 500)).1 =
      .ok () ∧
    (GoRedis.HeartbeatAgent demoTTL c1State 1000 "a1" (some 500)).2.agentHash
      "a1" = some { id := some "a1", lastHeartbeatUnixMs := some 500 } ∧
    (GoRedis.HeartbeatAgent demoTTL c1State 1000 "a1"
      (some 500)).2.placementHash "a1" =
      some { agentID := some "a1", relayID := some "r1"
             updatedAtUnixMs := some 1000 } ∧
    (GoRedis.GetAgentPlacement demoTTL
      (GoRedis.HeartbeatAgent demoTTL c1State 1000 "a1" (some 500)).2 1000
      "a1").1 =
      .ok { agentID := "a1", relayID := "r1", updatedAt := some 1000 } ∧
    (1000 : Int) ≠ 500 ∧
    (RespRedis.HeartbeatAgent c1RespState 1000 "a1" (some 500)).1 =
      .error .agentNotRegistered := by
  decide

/-- C2: the hand-rolled adapter's ListRelays performs no timestamp check at
all (it has no TTL configuration and its writes set no native expiry): the
relay `r1`, last seen at the epoch, is still returned and still a member of
the relay index, no matter how distant the read time — while the pipeline
adapter on the analogous state at read time 1000000 ms filters the stale
relay out and evicts it from the index, as the claim states. -/
theorem listRelays_no_ttl_filter :
    (RespRedis.ListRelays c2State).1 = .ok [c2Relay] ∧
    (RespRedis.ListRelays c2State).2.relaysSet = ["r1"] ∧
    c2Relay.lastSeen = some 0 ∧
    (GoRedis.ListRelays demoTTL c2GoState 1000000).1 = .ok [] ∧
    (GoRedis.ListRelays demoTTL c2GoState 1000000).2.relaysIndex = [] ∧
    (GoRedis.ListRelays demoTTL c2GoState 1000000).2.relayHash "r1" = none := by
  decide

/-- C3: the pipeline adapter's RemoveRelay performs no existence check: on an
empty store it unconditionally DELs and SREMs and returns success instead of
the claimed relay-not-registered error; the hand-rolled adapter (EXISTS
check) and the etcd-shaped adapter (map-membership check) both return the
error the claim states. -/
theorem removeRelay_absent_divergence :
    (GoRedis.RemoveRelay GoRedis.emptyState "r1").1 = .ok () ∧
    (RespRedis.RemoveRelay RespRedis.emptyState "r1").1 =
      .error .relayNotRegistered ∧
    (Etcd.RemoveRelay Etcd.emptyState "r1").1 =
      .error .relayNotRegistered := by
  decide

/-- C4: the hand-rolled adapter's GetAgentPlacement returns the stored
placement unconditionally — the epoch-stamped placement of `a1` is returned
as-is, nothing is evicted, and an absent record reports agent-not-registered
rather than the claimed agent-not-placed; the pipeline adapter on the
analogous state at read time 100000 ms implements the claimed behaviour:
agent-not-placed plus eviction of the agent record, the placement record and
the agent-index membership. -/
theorem getAgentPlacement_no_expiry_check :
    (RespRedis.GetAgentPlacement c4State "a1").1 = .ok c4Placement ∧
    (RespRedis.GetAgentPlacement c4State "a1").2.placementRecord "a1" =
      some c4Placement ∧
    (RespRedis.GetAgentPlacement c4State "a1").2.agentsSet = ["a1"] ∧
    (RespRedis.GetAgentPlacement c4State "zz").1 =
      .error .agentNotRegistered ∧
    (GoRedis.GetAgentPlacement demoTTL c4GoState 100000 "a1").1 =
      .error .agentNotPlaced ∧
    (GoRedis.GetAgentPlacement demoTTL c4GoState 100000 "a1").2.placementHash
      "a1" = none ∧
    (GoRedis.GetAgentPlacement demoTTL c4GoState 100000 "a1").2.agentHash
      "a1" = none ∧
    (GoRedis.GetAgentPlacement demoTTL c4GoState 100000 "a1").2.agentsIndex =
      [] := by
  decide

/-- C5: the pipeline adapter's RegisterRelay performs no id validation: a
relay with the empty id is written to the store and the empty id is added to
the relay index (so the claimed absence from the index fails), while the
hand-rolled adapter returns the claimed empty-id error before any mutation. -/
theorem registerRelay_empty_id_divergence :
    (GoRedis.RegisterRelay demoTTL GoRedis.emptyState 0 emptyIDRelay).1 =
      .ok () ∧
    "" ∈ (GoRedis.RegisterRelay demoTTL GoRedis.emptyState 0
      emptyIDRelay).2.relaysIndex ∧
    (GoRedis.RegisterRelay demoTTL GoRedis.emptyState 0
      emptyIDRelay).2.relayHash "" =
      some { id := some "", address := some "10.0.0.1"
             grpcPort := some 50051, lastSeenUnixMs := some 0 } ∧
    (RespRedis.RegisterRelay RespRedis.emptyState 0 emptyIDRelay).1 =
      .error .relayIDEmpty ∧
    (RespRedis.RegisterRelay RespRedis.emptyState 0 emptyIDRelay).2.relaysSet =
      [] ∧
    (RespRedis.RegisterRelay RespRedis.emptyState 0
      emptyIDRelay).2.relayRecord "" = none := by
  decide

/-- C7: the pipeline adapter's HeartbeatRelay accepts the empty relay id —
heartbeating `""` succeeds, creating a one-field hash and adding `""` to the
relay index instead of failing with the claimed relay-id-empty error; its
zero-timestamp check does return heartbeat-timestamp-missing as claimed, and
the hand-rolled adapter rejects the empty id. -/
theorem heartbeatRelay_empty_id_divergence :
    (GoRedis.HeartbeatRelay demoTTL GoRedis.emptyState 0 "" (some 5)).1 =
      .ok () ∧
    "" ∈ (GoRedis.HeartbeatRelay demoTTL GoRedis.emptyState 0 ""
      (some 5)).2.relaysIndex ∧
    (GoRedis.HeartbeatRelay demoTTL GoRedis.emptyState 0 ""
      (some 5)).2.relayHash "" =
      some { id := none, address := none, grpcPort := none
             lastSeenUnixMs := some 5 } ∧
    (GoRedis.HeartbeatRelay demoTTL GoRedis.emptyState 0 "r1" none).1 =
      .error .heartbeatTimestampMissing ∧
    (RespRedis.HeartbeatRelay RespRedis.emptyState 0 "" (some 5)).1 =
      .error .relayIDEmpty := by
  decide

/-- Field frame of the hand-rolled RemoveRelay: the agent-side components are
untouched on every path. -/
theorem respRemoveRelay_agent_frame (s : RespRedis.State) (rid : String) :
    (RespRedis.RemoveRelay s rid).2.agentRecord = s.agentRecord ∧
    (RespRedis.RemoveRelay s rid).2.placementRecord = s.placementRecord ∧
    (RespRedis.RemoveRelay s rid).2.agentsSet = s.agentsSet := by
  unfold RespRedis.RemoveRelay
  split
  · exact ⟨rfl, rfl, rfl⟩
  · split
    · exact ⟨rfl, rfl, rfl⟩
    · exact ⟨rfl, rfl, rfl⟩

/-- Result of the hand-rolled GetAgentPlacement depends only on the placement
records. -/
theorem respGetAgentPlacement_congr (s s' : RespRedis.State)
    (h : s'.placementRecord = s.placementRecord) (aid : String) :
    (RespRedis.GetAgentPlacement s' aid).1 =
      (RespRedis.GetAgentPlacement s aid).1 := by
  by_cases ha : aid = ""
  · simp [RespRedis.GetAgentPlacement, ha]
  · simp only [RespRedis.GetAgentPlacement, ha, if_false, h]
    cases s.placementRecord aid <;> rfl

/-- Field frame of the etcd-shaped RemoveRelay. -/
theorem etcdRemoveRelay_agent_frame (s : Etcd.State) (rid : String) :
    (Etcd.RemoveRelay s rid).2.agents = s.agents ∧
    (Etcd.RemoveRelay s rid).2.placements = s.placements := by
  unfold Etcd.RemoveRelay
  split
  · exact ⟨rfl, rfl⟩
  · split
    · exact ⟨rfl, rfl⟩
    · exact ⟨rfl, rfl⟩

/-- Result of the etcd-shaped GetAgentPlacement depends only on the placement
map. -/
theorem etcdGetAgentPlacement_congr (s s' : Etcd.State)
    (h : s'.placements = s.placements) (aid : String) :
    (Etcd.GetAgentPlacement s' aid).1 = (Etcd.GetAgentPlacement s aid).1 := by
  by_cases ha : aid = ""
  · simp [Etcd.GetAgentPlacement, ha]
  · simp only [Etcd.GetAgentPlacement, ha, if_false, h]
    cases s.placements aid <;> rfl

/-- Result of the pipeline GetAgentPlacement depends only on the placement
hashes and their deadlines. -/
theorem goGetAgentPlacement_congr (ttl : TTLConfig) (s s' : GoRedis.State)
    (h1 : s'.placementHash = s.placementHash)
    (h2 : s'.placementDeadline = s.placementDeadline) (now : Int)
    (aid : String) :
    (GoRedis.GetAgentPlacement ttl s' now aid).1 =
      (GoRedis.GetAgentPlacement ttl s now aid).1 := by
  simp only [GoRedis.GetAgentPlacement, h1, h2]
  cases GoRedis.get s.placementHash s.placementDeadline aid now with
  | none => rfl
  | some pd =>
    dsimp only
    cases (GoRedis.parsePlacement pd).updatedAt with
    | none => rfl
    | some u =>
      dsimp only
      by_cases hc : ttl.agent < now - u <;> simp [hc]

/-- C6: removing a relay never cascades into the agent side, in each adapter
that implements state.  Hand-rolled adapter: RemoveRelay leaves every agent
record, every placement record and the agent index unchanged, so
GetAgentPlacement answers exactly as before; etcd-shaped adapter: likewise;
pipeline adapter: RemoveRelay and the relay-expiry reclamation inside
ListRelays touch no agent/placement hash, no agent deadline and not the
agent index, so GetAgentPlacement (whose own TTL clock is the agent TTL)
answers exactly as before. -/
theorem removeRelay_no_cascade :
    (∀ (s : RespRedis.State) (rid : String),
      (RespRedis.RemoveRelay s rid).2.agentRecord = s.agentRecord ∧
      (RespRedis.RemoveRelay s rid).2.placementRecord = s.placementRecord ∧
      (RespRedis.RemoveRelay s rid).2.agentsSet = s.agentsSet ∧
      ∀ aid, (RespRedis.GetAgentPlacement (RespRedis.RemoveRelay s rid).2
        aid).1 = (RespRedis.GetAgentPlacement s aid).1) ∧
    (∀ (s : Etcd.State) (rid : String),
      (Etcd.RemoveRelay s rid).2.agents = s.agents ∧
      (Etcd.RemoveRelay s rid).2.placements = s.placements ∧
      ∀ aid, (Etcd.GetAgentPlacement (Etcd.RemoveRelay s rid).2 aid).1 =
        (Etcd.GetAgentPlacement s aid).1) ∧
    (∀ (s : GoRedis.State) (rid : String),
      (GoRedis.RemoveRelay s rid).2.agentHash = s.agentHash ∧
      (GoRedis.RemoveRelay s rid).2.agentDeadline = s.agentDeadline ∧
      (GoRedis.RemoveRelay s rid).2.placementHash = s.placementHash ∧
      (GoRedis.RemoveRelay s rid).2.placementDeadline = s.placementDeadline ∧
      (GoRedis.RemoveRelay s rid).2.agentsIndex = s.agentsIndex ∧
      ∀ (ttl : TTLConfig) (now : Int) (aid : String),
        (GoRedis.GetAgentPlacement ttl (GoRedis.RemoveRelay s rid).2 now
          aid).1 = (GoRedis.GetAgentPlacement ttl s now aid).1) ∧
    (∀ (ttl : TTLConfig) (s : GoRedis.State) (now : Int),
      (GoRedis.ListRelays ttl s now).2.agentHash = s.agentHash ∧
      (GoRedis.ListRelays ttl s now).2.agentDeadline = s.agentDeadline ∧
      (GoRedis.ListRelays ttl s now).2.placementHash = s.placementHash ∧
      (GoRedis.ListRelays ttl s now).2.placementDeadline =
        s.placementDeadline ∧
      (GoRedis.ListRelays ttl s now).2.agentsIndex = s.agentsIndex ∧
      ∀ (now' : Int) (aid : String),
        (GoRedis.GetAgentPlacement ttl (GoRedis.ListRelays ttl s now).2 now'
          aid).1 = (GoRedis.GetAgentPlacement ttl s now' aid).1) := by
  refine ⟨?_, ?_, ?_, ?_⟩
  · intro s rid
    obtain ⟨h1, h2, h3⟩ := respRemoveRelay_agent_frame s rid
    exact ⟨h1, h2, h3, fun aid =>
      respGetAgentPlacement_congr s (RespRedis.RemoveRelay s rid).2 h2 aid⟩
  · intro s rid
    obtain ⟨h1, h2⟩ := etcdRemoveRelay_agent_frame s rid
    exact ⟨h1, h2, fun aid =>
      etcdGetAgentPlacement_congr s (Etcd.RemoveRelay s rid).2 h2 aid⟩
  · intro s rid
    exact ⟨rfl, rfl, rfl, rfl, rfl, fun ttl now aid =>
      goGetAgentPlacement_congr ttl s (GoRedis.RemoveRelay s rid).2 rfl rfl
        now aid⟩
  · intro ttl s now
    exact ⟨rfl, rfl, rfl, rfl, rfl, fun now' aid =>
      goGetAgentPlacement_congr ttl s (GoRedis.ListRelays ttl s now).2 rfl rfl
        now' aid⟩

/-- Presence under the liveness-qualified read implies physical presence. -/
theorem get_isSome_of {α : Type} {h : String → Option α}
    {dl : String → Option Int} {k : String} {now : Int} {v : α}
    (hg : GoRedis.get h dl k now = some v) : (h k).isSome := by
  unfold GoRedis.get at hg
  cases hh : h k with
  | none => rw [hh] at hg; exact absurd hg (by simp)
  | some w => simp

/-- Weakening of the registered-id list of `PlacementBacked`. -/
theorem placementBacked_mono {regs regs' : List String} {s : GoRedis.State}
    (hsub : ∀ a ∈ regs, a ∈ regs') (h : PlacementBacked regs s) :
    PlacementBacked regs' s :=
  fun aid hp => ⟨hsub _ (h aid hp).1, (h aid hp).2⟩

/-- Registered ids of a cons trace decompose into head and tail. -/
theorem registeredAgentIDs_cons (op : GoRedis.Op) (tr : List GoRedis.Op) :
    GoRedis.registeredAgentIDs (op :: tr) =
      GoRedis.registeredAgentIDs [op] ++ GoRedis.registeredAgentIDs tr := by
  cases op <;> simp [GoRedis.registeredAgentIDs]

/-- Every backend operation preserves `PlacementBacked`, enlarging the
registered-id list by the agent ids the operation registers. -/
theorem step_placementBacked (ttl : TTLConfig) (s : GoRedis.State)
    (op : GoRedis.Op) (regs : List String) (h : PlacementBacked regs s) :
    PlacementBacked (regs ++ GoRedis.registeredAgentIDs [op])
      (GoRedis.step ttl s op) := by
  cases op with
  | registerRelay now relay =>
    exact fun aid hp =>
      ⟨List.mem_append_left _ (h aid hp).1, (h aid hp).2⟩
  | heartbeatRelay now relayID ts =>
    cases ts with
    | none =>
      exact fun aid hp =>
        ⟨List.mem_append_left _ (h aid hp).1, (h aid hp).2⟩
    | some tsv =>
      exact fun aid hp =>
        ⟨List.mem_append_left _ (h aid hp).1, (h aid hp).2⟩
  | listRelays now =>
    exact fun aid hp =>
      ⟨List.mem_append_left _ (h aid hp).1, (h aid hp).2⟩
  | removeRelay now relayID =>
    exact fun aid hp =>
      ⟨List.mem_append_left _ (h aid hp).1, (h aid hp).2⟩
  | registerAgent now agent relayID =>
    intro aid hp
    simp only [GoRedis.step, GoRedis.RegisterAgent] at hp
    by_cases ha : aid = agent.id
    · constructor
      · refine List.mem_append_right _ ?_
        rw [ha]
        simp [GoRedis.registeredAgentIDs]
      · simp only [GoRedis.step, GoRedis.RegisterAgent]
        simp [ha]
    · rw [if_neg ha] at hp
      refine ⟨List.mem_append_left _ (h aid hp).1, ?_⟩
      simp only [GoRedis.step, GoRedis.RegisterAgent]
      simp only [if_neg ha]
      exact (h aid hp).2
  | heartbeatAgent now agentID ts =>
    cases ts with
    | none =>
      exact fun aid hp =>
        ⟨List.mem_append_left _ (h aid hp).1, (h aid hp).2⟩
    | some tsv =>
      intro aid hp
      cases hg : GoRedis.get s.placementHash s.placementDeadline agentID now with
      | none =>
        simp only [GoRedis.step, GoRedis.HeartbeatAgent, hg] at hp ⊢
        exact ⟨List.mem_append_left _ (h aid hp).1, (h aid hp).2⟩
      | some pd =>
        by_cases hid : pd.agentID.getD "" = "" ∨ pd.relayID.getD "" = ""
        · simp only [GoRedis.step, GoRedis.HeartbeatAgent, hg, if_pos hid]
            at hp ⊢
          exact ⟨List.mem_append_left _ (h aid hp).1, (h aid hp).2⟩
        · simp only [GoRedis.step, GoRedis.HeartbeatAgent, hg, if_neg hid]
            at hp ⊢
          by_cases ha : aid = agentID
          · subst ha
            have hold : (s.placementHash aid).isSome := get_isSome_of hg
            refine ⟨List.mem_append_left _ (h aid hold).1, ?_⟩
            simp
          · simp only [if_neg ha] at hp ⊢
            exact ⟨List.mem_append_left _ (h aid hp).1, (h aid hp).2⟩
  | getAgentPlacement now agentID =>
    intro aid hp
    cases hg : GoRedis.get s.placementHash s.placementDeadline agentID now with
    | none =>
      simp only [GoRedis.step, GoRedis.GetAgentPlacement, hg] at hp ⊢
      exact ⟨List.mem_append_left _ (h aid hp).1, (h aid hp).2⟩
    | some pd =>
      cases hu : (GoRedis.parsePlacement pd).updatedAt with
      | none =>
        simp only [GoRedis.step, GoRedis.GetAgentPlacement, hg, hu] at hp ⊢
        by_cases ha : aid = agentID
        · subst ha
          simp at hp
        · simp only [if_neg ha] at hp ⊢
          exact ⟨List.mem_append_left _ (h aid hp).1, (h aid hp).2⟩
      | some u =>
        simp only [GoRedis.step, GoRedis.GetAgentPlacement, hg, hu] at hp ⊢
        by_cases hc : ttl.agent < now - u
        · simp only [if_pos hc] at hp ⊢
          by_cases ha : aid = agentID
          · subst ha
            simp at hp
          · simp only [if_neg ha] at hp ⊢
            exact ⟨List.mem_append_left _ (h aid hp).1, (h aid hp).2⟩
        · simp only [if_neg hc] at hp ⊢
          exact ⟨List.mem_append_left _ (h aid hp).1, (h aid hp).2⟩

/-- Folding a trace from any `PlacementBacked` state stays `PlacementBacked`
for the extended registered-id list. -/
theorem foldl_placementBacked (ttl : TTLConfig) :
    ∀ (trace : List GoRedis.Op) (s : GoRedis.State) (regs : List String),
      PlacementBacked regs s →
      PlacementBacked (regs ++ GoRedis.registeredAgentIDs trace)
        (trace.foldl (GoRedis.step ttl) s) := by
  intro trace
  induction trace with
  | nil =>
    intro s regs h
    simpa [GoRedis.registeredAgentIDs] using h
  | cons op tr ih =>
    intro s regs h
    rw [List.foldl_cons, registeredAgentIDs_cons, ← List.append_assoc]
    exact ih (GoRedis.step ttl s op) (regs ++ GoRedis.registeredAgentIDs [op])
      (step_placementBacked ttl s op regs h)

/-- C9: in every state reachable from the empty store by backend operations,
a present placement hash belongs to an agent id that some RegisterAgent call
of the trace registered (the operation that also created the agent record in
the same transactional pipeline), and the agent hash for that id is present
too; consequently a heartbeat for an agent id never registered in the trace
fails and leaves the state untouched. -/
theorem placement_implies_registered :
    (∀ (ttl : TTLConfig) (trace : List GoRedis.Op) (aid : String),
      ((GoRedis.run ttl trace).placementHash aid).isSome →
      aid ∈ GoRedis.registeredAgentIDs trace ∧
        ((GoRedis.run ttl trace).agentHash aid).isSome) ∧
    (∀ (ttl : TTLConfig) (trace : List GoRedis.Op) (now : Int) (aid : String)
        (ts : Option Int),
      aid ∉ GoRedis.registeredAgentIDs trace →
      (∃ e, (GoRedis.HeartbeatAgent ttl (GoRedis.run ttl trace) now aid
        ts).1 = .error e) ∧
      (GoRedis.HeartbeatAgent ttl (GoRedis.run ttl trace) now aid ts).2 =
        GoRedis.run ttl trace) := by
  have hmain : ∀ (ttl : TTLConfig) (trace : List GoRedis.Op),
      PlacementBacked (GoRedis.registeredAgentIDs trace)
        (GoRedis.run ttl trace) := by
    intro ttl trace
    have h0 : PlacementBacked [] GoRedis.emptyState := by
      intro aid hp
      simp [GoRedis.emptyState] at hp
    have hf := foldl_placementBacked ttl trace GoRedis.emptyState [] h0
    simpa [GoRedis.run] using hf
  constructor
  · exact fun ttl trace aid hp => hmain ttl trace aid hp
  · intro ttl trace now aid ts hmem
    have hnone : (GoRedis.run ttl trace).placementHash aid = none := by
      cases hh : (GoRedis.run ttl trace).placementHash aid with
      | none => rfl
      | some pd =>
        exact absurd (hmain ttl trace aid (by simp [hh])).1 hmem
    cases ts with
    | none => exact ⟨⟨.heartbeatTimestampMissing, rfl⟩, rfl⟩
    | some tsv =>
      have hget : GoRedis.get (GoRedis.run ttl trace).placementHash
          (GoRedis.run ttl trace).placementDeadline aid now = none := by
        unfold GoRedis.get
        rw [hnone]
      refine ⟨⟨.agentNotPlaced, ?_⟩, ?_⟩
      · simp [GoRedis.HeartbeatAgent, hget]
      · simp [GoRedis.HeartbeatAgent, hget]

/-- C9 witness: the one-operation trace registering `a1` satisfies the
invariant's hypothesis and conclusion at `a1`, and a heartbeat for the never
registered id `zz` on the empty trace fails without touching the state. -/
theorem placement_implies_registered_witness :
    ("a1" ∈ GoRedis.registeredAgentIDs c9Trace ∧
      ((GoRedis.run demoTTL c9Trace).agentHash "a1").isSome) ∧
    ((∃ e, (GoRedis.HeartbeatAgent demoTTL (GoRedis.run demoTTL []) 5 "zz"
      (some 3)).1 = .error e) ∧
      (GoRedis.HeartbeatAgent demoTTL (GoRedis.run demoTTL []) 5 "zz"
        (some 3)).2 = GoRedis.run demoTTL []) :=
  ⟨placement_implies_registered.1 demoTTL c9Trace "a1" (by decide),
    placement_implies_registered.2 demoTTL [] 5 "zz" (some 3) (by decide)⟩

/-- Value of the digit character of a decimal digit. -/
theorem RESP.digitVal_digitChar {d : Nat} (h : d < 10) :
    RESP.digitVal (Nat.digitChar d) = some d := by
  interval_cases d <;> rfl

/-- Accumulating parse of a mapped digit list folds the digits onto the
accumulator. -/
theorem RESP.parseNatAux_map (L : List Nat) (hL : ∀ d ∈ L, d < 10)
    (acc : Nat) :
    RESP.parseNatAux acc (L.map Nat.digitChar) =
      some (L.foldl (fun a d => a * 10 + d) acc) := by
  induction L generalizing acc with
  | nil => rfl
  | cons d ds ih =>
    have hd : d < 10 := hL d (List.mem_cons_self d ds)
    simp only [List.map_cons, RESP.parseNatAux, RESP.digitVal_digitChar hd,
      List.foldl_cons]
    exact ih (fun x hx => hL x (List.mem_cons_of_mem _ hx)) (acc * 10 + d)

/-- Folding decimal digits most-significant-first recovers the number. -/
theorem RESP.foldl_reverse_ofDigits (L : List Nat) (acc : Nat) :
    L.reverse.foldl (fun a d => a * 10 + d) acc =
      acc * 10 ^ L.length + Nat.ofDigits 10 L := by
  induction L generalizing acc with
  | nil => simp
  | cons d ds ih =>
    simp only [List.reverse_cons, List.foldl_append, List.foldl_cons,
      List.foldl_nil, ih, Nat.ofDigits_cons, List.length_cons]
    ring

/-- Decimal rendering is never the empty string. -/
theorem RESP.natChars_ne_nil (n : Nat) : RESP.natChars n ≠ [] := by
  unfold RESP.natChars
  by_cases h0 : n = 0
  · simp [h0]
  · rw [if_neg h0]
    simp [List.reverse_eq_nil_iff, Nat.digits_ne_nil_iff_ne_zero.mpr h0]

/-- Every character of a decimal rendering is a digit character. -/
theorem RESP.natChars_mem {n : Nat} {c : Char} (hc : c ∈ RESP.natChars n) :
    ∃ d, d < 10 ∧ c = Nat.digitChar d := by
  unfold RESP.natChars at hc
  by_cases h0 : n = 0
  · rw [if_pos h0] at hc
    simp at hc
    exact ⟨0, by decide, by rw [hc]; rfl⟩
  · rw [if_neg h0] at hc
    rw [List.mem_reverse] at hc
    obtain ⟨d, hd, hcd⟩ := List.mem_map.mp hc
    exact ⟨d, Nat.digits_lt_base (by norm_num) hd, hcd.symm⟩

/-- Decimal renderings hold no newline. -/
theorem RESP.no_newline_natChars (n : Nat) : '\n' ∉ RESP.natChars n := by
  intro hm
  obtain ⟨d, hd, hc⟩ := RESP.natChars_mem hm
  revert hc
  interval_cases d <;> decide

/-- Decimal parse of a decimal rendering. -/
theorem RESP.parseNat_natChars (n : Nat) :
    RESP.parseNatChars (RESP.natChars n) = some n := by
  by_cases h0 : n = 0
  · subst h0; rfl
  · have hne := RESP.natChars_ne_nil n
    unfold RESP.parseNatChars
    rw [if_neg (by simp [List.isEmpty_iff, hne])]
    unfold RESP.natChars
    rw [if_neg h0]
    rw [← List.map_reverse]
    rw [RESP.parseNatAux_map ((Nat.digits 10 n).reverse)
      (fun d hd => Nat.digits_lt_base (by norm_num)
        (List.mem_reverse.mp hd)) 0]
    rw [RESP.foldl_reverse_ofDigits]
    simp [Nat.ofDigits_digits]

/-- Atoi parse of a decimal rendering. -/
theorem RESP.parseInt_natChars (n : Nat) :
    RESP.parseIntChars (RESP.natChars n) = some (n : Int) := by
  cases hnc : RESP.natChars n with
  | nil => exact absurd hnc (RESP.natChars_ne_nil n)
  | cons c cs =>
    have hc : c ∈ RESP.natChars n := by
      rw [hnc]; exact List.mem_cons_self c cs
    obtain ⟨d, hd, rfl⟩ := RESP.natChars_mem hc
    have hminus : ¬ Nat.digitChar d = '-' := by
      revert hd; intro hd; interval_cases d <;> decide
    have hplus : ¬ Nat.digitChar d = '+' := by
      revert hd; intro hd; interval_cases d <;> decide
    unfold RESP.parseIntChars
    dsimp only
    rw [if_neg hminus, if_neg hplus, ← hnc, RESP.parseNat_natChars]
    rfl

/-- Splitting at the newline recovers the newline-free prefix. -/
theorem RESP.splitLine_append (L R : List Char) (h : '\n' ∉ L) :
    RESP.splitLine (L ++ '\n' :: R) = some (L, R) := by
  induction L with
  | nil => simp [RESP.splitLine]
  | cons c cs ih =>
    have hc : ¬ c = '\n' := fun hh => h (hh ▸ List.mem_cons_self c cs)
    have hcs : '\n' ∉ cs := fun hm => h (List.mem_cons_of_mem _ hm)
    simp only [List.cons_append, RESP.splitLine, if_neg hc]
    simp [ih hcs]

/-- readLine of a CRLF-terminated newline-free line yields the line and the
tail. -/
theorem RESP.readLine_crlf (L R : List Char) (h : '\n' ∉ L) :
    RESP.readLine (L ++ '\r' :: '\n' :: R) = some (L, R) := by
  unfold RESP.readLine
  have hsplit : L ++ '\r' :: '\n' :: R = (L ++ ['\r']) ++ '\n' :: R := by
    simp
  have hmem : '\n' ∉ L ++ ['\r'] := by
    simp only [List.mem_append, List.mem_singleton]
    rintro (hm | hm)
    · exact h hm
    · exact absurd hm (by decide)
  rw [hsplit, RESP.splitLine_append _ _ hmem]
  simp only [Option.map_some']
  unfold RESP.stripCR
  rw [List.getLast?_concat]
  rw [if_pos rfl, List.dropLast_concat]

/-- Branch selection of readRESP on a `$` prefix. -/
theorem RESP.readRESP_dollar (fuel : Nat) (cs : List Char) :
    RESP.readRESP (fuel + 1) ('$' :: cs) =
      match RESP.readLine cs with
      | none => .error .eof
      | some (line, rest) =>
        match RESP.parseIntChars line with
        | none => .error (.badNumber line)
        | some n =>
          if n < 0 then .ok (.null, rest)
          else if rest.length < n.toNat + 2 then .error .eof
          else .ok (.bulk (rest.take n.toNat), rest.drop (n.toNat + 2)) := by
  simp only [RESP.readRESP]
  rw [if_neg (show ¬ ('$' : Char) = '+' by decide),
    if_neg (show ¬ ('$' : Char) = '-' by decide),
    if_neg (show ¬ ('$' : Char) = ':' by decide),
    if_pos trivial]

/-- Branch selection of readRESP on a `*` prefix. -/
theorem RESP.readRESP_star (fuel : Nat) (cs : List Char) :
    RESP.readRESP (fuel + 1) ('*' :: cs) =
      match RESP.readLine cs with
      | none => .error .eof
      | some (line, rest) =>
        match RESP.parseIntChars line with
        | none => .error (.badNumber line)
        | some n =>
          if n < 0 then .ok (.null, rest)
          else
            match RESP.readArray fuel n.toNat rest with
            | .error e => .error e
            | .ok (xs, rest') => .ok (.arr xs, rest') := by
  simp only [RESP.readRESP]
  rw [if_neg (show ¬ ('*' : Char) = '+' by decide),
    if_neg (show ¬ ('*' : Char) = '-' by decide),
    if_neg (show ¬ ('*' : Char) = ':' by decide),
    if_neg (show ¬ ('*' : Char) = '$' by decide),
    if_pos trivial]

/-- Bulk-string decode of a length-prefixed encoded argument. -/
theorem RESP.readRESP_bulk (fuel : Nat) (a rest : List Char) :
    RESP.readRESP (fuel + 1)
      ('$' :: (RESP.natChars a.length ++ '\r' :: '\n' ::
        (a ++ '\r' :: '\n' :: rest))) = .ok (.bulk a, rest) := by
  rw [RESP.readRESP_dollar]
  rw [RESP.readLine_crlf _ _ (RESP.no_newline_natChars _)]
  dsimp only
  rw [RESP.parseInt_natChars]
  dsimp only
  rw [if_neg (show ¬ ((a.length : Int) < 0) by omega)]
  rw [Int.toNat_natCast]
  rw [if_neg (show ¬ ((a ++ '\r' :: '\n' :: rest).length < a.length + 2) by
    simp only [List.length_append, List.length_cons]
    omega)]
  rw [List.take_left]
  have hsplit : a ++ '\r' :: '\n' :: rest = (a ++ ['\r', '\n']) ++ rest := by
    simp
  have hlen : a.length + 2 = (a ++ ['\r', '\n']).length := by simp
  rw [hsplit, hlen, List.drop_left]

/-- Element-loop decode of a flattened list of encoded arguments. -/
theorem RESP.readArray_encode (fuel : Nat) (args : List (List Char))
    (rest : List Char) :
    RESP.readArray (fuel + 1) args.length
      ((args.map (fun arg =>
        ('$' :: RESP.natChars arg.length) ++ RESP.crlf ++ arg ++
          RESP.crlf)).flatten ++ rest) =
      .ok (args.map RESP.RVal.bulk, rest) := by
  induction args generalizing rest with
  | nil => simp [RESP.readArray]
  | cons a as ih =>
    simp only [List.map_cons, List.flatten_cons, List.length_cons]
    rw [List.append_assoc]
    have hshape :
        (('$' :: RESP.natChars a.length) ++ RESP.crlf ++ a ++ RESP.crlf) ++
          ((as.map (fun arg =>
            ('$' :: RESP.natChars arg.length) ++ RESP.crlf ++ arg ++
              RESP.crlf)).flatten ++ rest) =
        '$' :: (RESP.natChars a.length ++ '\r' :: '\n' ::
          (a ++ '\r' :: '\n' :: ((as.map (fun arg =>
            ('$' :: RESP.natChars arg.length) ++ RESP.crlf ++ arg ++
              RESP.crlf)).flatten ++ rest))) := by
      simp [RESP.crlf]
    rw [hshape]
    simp only [RESP.readArray]
    rw [RESP.readRESP_bulk fuel]
    dsimp only
    rw [ih]

/-- C8: the command encoder and the reply decoder round-trip — writeRESP
frames the arguments as a `*` count line followed by per-argument `$`
byte-length lines and raw bytes, each CRLF-terminated, and readRESP (with any
sufficient recursion fuel) decodes that byte stream back to the array of
exactly the original argument byte strings, in order, with nothing left on
the stream. -/
theorem writeRESP_readRESP_roundtrip (fuel : Nat) (args : List (List Char)) :
    RESP.readRESP (fuel + 2) (RESP.writeRESP args) =
      .ok (.arr (args.map RESP.RVal.bulk), []) := by
  have hshape : RESP.writeRESP args =
      '*' :: (RESP.natChars args.length ++ '\r' :: '\n' ::
        ((args.map (fun arg =>
          ('$' :: RESP.natChars arg.length) ++ RESP.crlf ++ arg ++
            RESP.crlf)).flatten ++ [])) := by
    simp [RESP.writeRESP, RESP.crlf]
  show RESP.readRESP (fuel + 1 + 1) (RESP.writeRESP args) = _
  rw [hshape]
  rw [RESP.readRESP_star]
  rw [RESP.readLine_crlf _ _ (RESP.no_newline_natChars _)]
  dsimp only
  rw [RESP.parseInt_natChars]
  dsimp only
  rw [if_neg (show ¬ ((args.length : Int) < 0) by omega)]
  rw [Int.toNat_natCast]
  rw [RESP.readArray_encode fuel args []]
